import Mathlib

/-!
Shallow embedding of the `website-fetcher` crawler/extractor core
(`crawler.ts` and `extractor.ts`): the URL admission predicate, the
local-path-to-URL reconstructor, the page-content extraction rules, the
sitemap builder, the digest generator and the run-result assembly.
Strings are modelled as Lean `String`; the external WHATWG URL parser and
the JSON parser are modelled as explicit inputs (a parsed-URL record, a
parse function returning `Option`).
-/

/-- JS `String.prototype.startsWith`: `p` is a prefix of `s`. -/
def strStartsWith (s p : String) : Bool :=
  p.data.isPrefixOf s.data

/-- JS `String.prototype.endsWith`: `p` is a suffix of `s`. -/
def strEndsWith (s p : String) : Bool :=
  p.data.isSuffixOf s.data

/-- JS `String.prototype.includes`: `sub` occurs contiguously inside `s`. -/
def strIncludes (s sub : String) : Bool :=
  decide (sub.data <:+: s.data)

/-- Drop the first `n` characters of a string (JS `slice(n)`). -/
def strDrop (s : String) (n : Nat) : String :=
  ⟨s.data.drop n⟩

/-- Drop the last `n` characters of a string (used to model `$`-anchored
regex replaces such as `replace(/\.html$/, '')`). -/
def strDropRight (s : String) (n : Nat) : String :=
  ⟨s.data.take (s.data.length - n)⟩

/-- JS `String.prototype.substring(0, n)`: the first `n` characters. -/
def strTake (s : String) (n : Nat) : String :=
  ⟨s.data.take n⟩

/-- Number of characters of a JS string. -/
def strLen (s : String) : Nat :=
  s.data.length

/-- Function `normalizeHostname` from `crawler.ts`: JS `hostname.replace(/^www\./, '')`,
i.e. strip one optional leading `www.`. -/
def normalizeHostname (hostname : String) : String :=
  if strStartsWith hostname "www." then strDrop hostname 4 else hostname

/-- The outcome of `new URL(resourceUrl, url)` — the external WHATWG URL
resolution — restricted to the fields the admission predicate reads.
The parser lowercases hostnames and keeps the trailing `:` on protocols
(`"https:"`). -/
structure ResolvedUrl where
  hostname : String
  protocol : String
  pathname : String
deriving DecidableEq, Repr

/-- The `urlFilter` closure from `crawler.ts` (`fetchWebsite`), the URL
admission predicate handed to the scraper. `normalizedBaseHost` is
`normalizeHostname(baseUrl.hostname)` for the seed; `resolved` is the result
of `new URL(resourceUrl, url)`, with `none` meaning the constructor threw
(the `catch` branch falls back to a syntactic check on the raw string). -/
def urlFilter (normalizedBaseHost : String) (resourceUrl : String)
    (resolved : Option ResolvedUrl) : Bool :=
  match resolved with
  | some resUrl =>
    let normalizedResHost := normalizeHostname resUrl.hostname
    let isSameDomain := normalizedResHost == normalizedBaseHost
    let isValidProtocol := resUrl.protocol == "http:" || resUrl.protocol == "https:"
    let isNotAdmin := !(strIncludes resUrl.pathname "/wp-admin")
        && !(strIncludes resUrl.pathname "/wp-login")
    isSameDomain && isValidProtocol && isNotAdmin
  | none =>
    !(strStartsWith resourceUrl "mailto:")
      && !(strStartsWith resourceUrl "tel:")
      && !(strStartsWith resourceUrl "javascript:")
      && !(strStartsWith resourceUrl "#")

/-- The parts of the seed `new URL(url)` that `reconstructUrl` reads: its
hostname and its origin (scheme + host + optional port). -/
structure UrlBase where
  hostname : String
  origin : String
deriving DecidableEq, Repr

/-- The `hostVariants` array of `reconstructUrl`, in source order: the
literal seed hostname, the `www.`-stripped hostname, and the hostname with
`www.` prepended to the stripped form. -/
def hostVariants (base : UrlBase) : List String :=
  [base.hostname, normalizeHostname base.hostname,
   "www." ++ normalizeHostname base.hostname]

/-- The `for (const host of hostVariants)` loop of `reconstructUrl`: the
first variant that matches — as `host + "/"` prefix, else as a bare prefix —
strips that many characters and breaks; no match leaves the path unchanged. -/
def stripHostFolder (relativePath : String) : List String → String
  | [] => relativePath
  | host :: rest =>
    if strStartsWith relativePath (host ++ "/") then
      strDrop relativePath (strLen host + 1)
    else if strStartsWith relativePath host then
      strDrop relativePath (strLen host)
    else stripHostFolder relativePath rest

/-- The two `$`-anchored replaces of `reconstructUrl`, applied in sequence:
`replace(/\/index\.html$/, '/')` (drop the last 10 characters of a path
ending in `/index.html`, keeping the `/`) and then `replace(/\.html$/, '')`. -/
def cleanHtmlPath (p : String) : String :=
  let q := if strEndsWith p "/index.html" then strDropRight p 10 else p
  if strEndsWith q ".html" then strDropRight q 5 else q

/-- Function `reconstructUrl` from `crawler.ts`: map a downloaded file's local
relative path back to the canonical URL it represents. -/
def reconstructUrl (base : UrlBase) (relativePath : String) : String :=
  let pathWithoutHost := stripHostFolder relativePath (hostVariants base)
  if pathWithoutHost == "index.html" || pathWithoutHost == "" then
    base.origin ++ "/"
  else
    base.origin ++ "/" ++ cleanHtmlPath pathWithoutHost

/-- JS `String.prototype.trim`: remove whitespace from both ends. -/
def strTrim (s : String) : String :=
  ⟨((s.data.dropWhile Char.isWhitespace).reverse.dropWhile Char.isWhitespace).reverse⟩

/-- One heading as extracted by `extractPageContent`: the numeral of the tag
name plus the trimmed element text. -/
structure Heading where
  level : Nat
  text : String
deriving DecidableEq, Repr

/-- The fields of a `PageContent` record consumed by the sitemap builder and
the digest generator. `description` is `none` when both description meta
tags are absent; as in JS, an empty-string description is falsy and treated
like an absent one wherever the generators test it. -/
structure Page where
  url : String
  path : String
  title : String
  description : Option String
  headings : List Heading
  paragraphs : List String
deriving DecidableEq, Repr

/-- One sitemap entry produced by `buildSitemap`. -/
structure SitemapEntry where
  url : String
  title : String
  depth : Nat
deriving DecidableEq, Repr

/-- Depth as computed in `buildSitemap`: `(p.path.match(/\//g) || []).length`,
the raw count of `/` characters in the page's path. -/
def slashCount (path : String) : Nat :=
  path.data.count '/'

/-- The `map` step of `buildSitemap`. -/
def sitemapEntryOf (p : Page) : SitemapEntry :=
  ⟨p.url, p.title, slashCount p.path⟩

/-- The comparator of `buildSitemap`, `(a, b) => a.depth - b.depth`: ascending
order on depth. -/
def depthLE (a b : SitemapEntry) : Bool :=
  decide (a.depth ≤ b.depth)

/-- Function `buildSitemap` from `crawler.ts`: one entry per page, sorted ascending by
depth. `Array.prototype.sort` is a stable sort (ES2019), modelled by the
stable `List.mergeSort`. -/
def buildSitemap (pages : List Page) : List SitemapEntry :=
  (pages.map sitemapEntryOf).mergeSort depthLE

/-- One anchor element matched by `$('a[href]')`, as the DOM query returns
it: `href` is `attr('href') || ''` and `text` is the trimmed anchor text. -/
structure Anchor where
  href : String
  text : String
deriving DecidableEq, Repr

/-- One extracted link record. -/
structure LinkInfo where
  href : String
  text : String
  isExternal : Bool
deriving DecidableEq, Repr

/-- The link-extraction loop of `extractPageContent`: keep every anchor whose
href is truthy (nonempty) and neither a pure in-page anchor (`#...`) nor a
`javascript:` pseudo-URL; `isExternal` is
`href.startsWith('http') && !href.includes(baseUrl.hostname)`. -/
def extractLinks (anchors : List Anchor) (hostname : String) : List LinkInfo :=
  anchors.filterMap fun a =>
    if a.href ≠ ""
        ∧ strStartsWith a.href "#" = false
        ∧ strStartsWith a.href "javascript:" = false then
      some ⟨a.href, a.text, strStartsWith a.href "http" && !(strIncludes a.href hostname)⟩
    else none

/-- Modelled from the spec: the host component of an absolute `http(s)` URL
as the external WHATWG URL parser (spec §1, out-of-scope collaborator) would
report it — the text after `://` and before the next `/`, `?`, `#` or `:`.
Used only to state the claim's reading of "the href's host". -/
def afterSchemeChars : List Char → List Char
  | ':' :: '/' :: '/' :: rest => rest
  | _ :: rest => afterSchemeChars rest
  | [] => []

/-- Modelled from the spec (continued): host of an absolute URL — the text
after the first `://`, up to the next `/`, `?`, `#` or `:`. -/
def specHrefHost (href : String) : String :=
  ⟨(afterSchemeChars href.data).takeWhile fun c =>
    !(c == '/' || c == '?' || c == '#' || c == ':')⟩

/-- The paragraph-extraction loop of `extractPageContent`: for each `p`
element's text, trim it, then keep it when it is truthy (nonempty) and
strictly longer than 20 characters. -/
def extractParagraphs (texts : List String) : List String :=
  texts.filterMap fun raw =>
    let text := strTrim raw
    if text ≠ "" ∧ 20 < strLen text then some text else none

/-- Function `extractStructuredData` from `extractor.ts`, with the external JSON
parser abstracted as `parse` (`none` models `JSON.parse` throwing). `blocks`
holds each `application/ld+json` script element's `html()` content, `none`
when the query yields `null`, defaulted to `""` by `|| ''`; each block is
parsed inside its own `try`, a failing block being skipped silently. -/
def extractStructuredData {J : Type} (parse : String → Option J)
    (blocks : List (Option String)) : List J :=
  blocks.filterMap fun b => parse (b.getD "")

/-- Bullet lines of a digest content subsection: one `- ` bullet per heading
of level ≤ 2, in document order. -/
def headingBullets (p : Page) : List String :=
  (p.headings.filter fun h => h.level ≤ 2).map fun h => "- " ++ h.text

/-- The first-paragraph summary lines of a digest subsection: when
`page.paragraphs[0]` is truthy, a blank line followed by its first 300
characters, with `...` appended exactly when it is longer than 300. -/
def firstParaLines (p : Page) : List String :=
  match p.paragraphs with
  | [] => []
  | q :: _ =>
    if q ≠ "" then
      ["", strTake q 300 ++ (if 300 < strLen q then "..." else "")]
    else []

/-- One page's lines in the digest's `## Inhalt / Content` section: a
subsection (title, URL, heading bullets, first-paragraph summary, trailing
blank line) when the page has any heading or any paragraph, else nothing. -/
def contentLines (p : Page) : List String :=
  if 0 < p.headings.length || 0 < p.paragraphs.length then
    ["### " ++ p.title, "URL: " ++ p.url, ""]
      ++ headingBullets p ++ firstParaLines p ++ [""]
  else []

/-- One page's lines in the digest's flat `## Seiten / Pages` list: the
title/url bullet plus the description indented beneath when truthy. -/
def pageListLines (p : Page) : List String :=
  ["- [" ++ p.title ++ "](" ++ p.url ++ ")"]
    ++ (match p.description with
        | some d => if d ≠ "" then ["  " ++ d] else []
        | none => [])

/-- The homepage block-quote lines of the digest: `pages.find(...)` takes the
first page whose path is `/` or empty; its description is emitted as a
block quote when present and truthy (`homepage?.description`). -/
def homepageLines (pages : List Page) : List String :=
  match pages.find? fun p => p.path == "/" || p.path == "" with
  | some homepage =>
    match homepage.description with
    | some d => if d ≠ "" then ["> " ++ d, ""] else []
    | none => []
  | none => []

/-- Function `generateLlmsTxt` from `extractor.ts`: the digest document, as the join
of the pushed lines. `domain` is `new URL(baseUrl).hostname` (external URL
parsing). -/
def generateLlmsTxt (pages : List Page) (domain : String) : String :=
  String.intercalate "\n"
    (["# " ++ domain, ""]
      ++ homepageLines pages
      ++ ["## Seiten / Pages", ""]
      ++ pages.flatMap pageListLines
      ++ [""]
      ++ ["## Inhalt / Content", ""]
      ++ pages.flatMap contentLines)

/-- An asset catalog entry (only the fields the claims touch). -/
structure AssetInfo where
  url : String
  localPath : String
deriving DecidableEq, Repr

/-- The externally determined effects of one `fetchWebsite` run, abstracting
its I/O: the scrape step either throws (with a message) or yields, in
directory order, the per-HTML-file outcomes — each the formatted
`Error extracting ...` message or the extracted page — plus the asset
catalog built during the same `try` block. -/
structure RunEffects where
  scrape : Except String (List (Except String Page) × List AssetInfo)

/-- The aggregate result assembled at the end of `fetchWebsite`. -/
structure FetchResult where
  success : Bool
  pages : List Page
  assets : List AssetInfo
  errors : List String
deriving DecidableEq, Repr

/-- Pure model of `fetchWebsite` from `crawler.ts`: errors accumulate exactly
as in the `try`/`catch` (one `Scraping error:` string when the scrape throws,
one string per failed file extraction otherwise), and the returned record
sets `success := errors.length === 0`. -/
def fetchWebsiteModel (eff : RunEffects) : FetchResult :=
  match eff.scrape with
  | .error e =>
    let errors := ["Scraping error: " ++ e]
    ⟨errors.length == 0, [], [], errors⟩
  | .ok (fileResults, assetList) =>
    let pages := fileResults.filterMap fun r => r.toOption
    let errors := fileResults.filterMap fun r =>
      match r with
      | .error msg => some msg
      | .ok _ => none
    ⟨errors.length == 0, pages, assetList, errors⟩

theorem normalizeHostname_www (h : String) :
    normalizeHostname ("www." ++ h) = h := by
  have hpre : strStartsWith ("www." ++ h) "www." = true := by
    simp [strStartsWith, String.data_append]
  have hlen : ("www." : String).data.length = 4 := by decide
  simp only [normalizeHostname, hpre, if_pos]
  show strDrop ("www." ++ h) 4 = h
  simp only [strDrop, String.data_append, ← hlen, List.drop_left]

theorem normalizeHostname_of_not_www (h : String)
    (hw : strStartsWith h "www." = false) : normalizeHostname h = h := by
  simp [normalizeHostname, hw]

/-- C1 (amended): for a hostname that does not itself begin with `www.`, the
admission predicate gives the same verdict on a URL at host `h` and at host
`www.h`, same seed and same remaining URL parts — hostnames are compared
after `normalizeHostname` strips one optional leading `www.` from each side. -/
theorem urlFilter_www_equal_origin (normalizedBaseHost resourceUrl : String)
    (u : ResolvedUrl) (hw : strStartsWith u.hostname "www." = false) :
    urlFilter normalizedBaseHost resourceUrl
      (some { u with hostname := "www." ++ u.hostname })
      = urlFilter normalizedBaseHost resourceUrl (some u) := by
  simp only [urlFilter, normalizeHostname_www, normalizeHostname_of_not_www u.hostname hw]

/-- C1 witness: concrete instance of `urlFilter_www_equal_origin` with seed
host `example.com` and candidate hosts `www.example.com` / `example.com`. -/
theorem urlFilter_www_equal_origin_witness :
    urlFilter "example.com" "https://www.example.com/page"
      (some ⟨"www.example.com", "https:", "/page"⟩)
      = urlFilter "example.com" "https://example.com/page"
      (some ⟨"example.com", "https:", "/page"⟩) := by
  have := urlFilter_www_equal_origin "example.com" "https://www.example.com/page"
    ⟨"example.com", "https:", "/page"⟩ (by decide)
  simpa using this.trans (by decide)

/-- C1 counterexample: the claim as stated quantifies over every hostname
`h`, but for `h := "www.example.com"` (a hostname that itself starts with
`www.`) and seed `example.com`, a URL on host `h` is admitted while the same
URL on host `www.h = "www.www.example.com"` is rejected: `normalizeHostname`
strips only one `www.` layer, so the two sides normalize differently. -/
theorem urlFilter_www_counterexample :
    urlFilter "example.com" "https://www.example.com/"
      (some ⟨"www.example.com", "https:", "/"⟩) = true
    ∧ urlFilter "example.com" "https://www.www.example.com/"
      (some ⟨"www.www.example.com", "https:", "/"⟩) = false := by
  constructor <;> decide

theorem strStartsWith_append_false (s v t : String)
    (h : strStartsWith s v = false) : strStartsWith s (v ++ t) = false := by
  simp only [strStartsWith, String.data_append, Bool.eq_false_iff, ne_eq,
    List.isPrefixOf_iff_prefix] at h ⊢
  exact fun hvt => h ((List.prefix_append v.data t.data).trans hvt)

theorem stripHostFolder_eq_self (rel : String) :
    ∀ vs : List String, (∀ v ∈ vs, strStartsWith rel v = false) →
      stripHostFolder rel vs = rel
  | [], _ => rfl
  | v :: rest, h => by
    have hv : strStartsWith rel v = false := h v (List.mem_cons_self ..)
    have hv' : strStartsWith rel (v ++ "/") = false :=
      strStartsWith_append_false rel v "/" hv
    simp only [stripHostFolder, hv, hv', Bool.false_eq_true, if_false]
    exact stripHostFolder_eq_self rel rest fun w hw => h w (List.mem_cons_of_mem _ hw)

/-- C2 (amended): for any seed, provided no host-folder variant of the seed
is a bare prefix of `index.html` (resp. `about.html`; the degenerate seeds
the counterexample exhibits are excluded), `reconstruct(seed, "index.html")`
is the origin plus a trailing slash (resp. `reconstruct(seed, "about.html")`
is origin + `/about`); and unconditionally — for every seed and every
relative path — whenever host-folder stripping leaves the empty path or
exactly `index.html`, the result is the origin with a trailing slash. -/
theorem reconstructUrl_index_and_about (base : UrlBase) :
    ((∀ v ∈ hostVariants base, strStartsWith "index.html" v = false) →
        reconstructUrl base "index.html" = base.origin ++ "/")
    ∧ ((∀ v ∈ hostVariants base, strStartsWith "about.html" v = false) →
        reconstructUrl base "about.html" = base.origin ++ "/about")
    ∧ ∀ rel : String,
        (stripHostFolder rel (hostVariants base) = ""
          ∨ stripHostFolder rel (hostVariants base) = "index.html") →
        reconstructUrl base rel = base.origin ++ "/"
  := by
  have part3 : ∀ rel : String,
      (stripHostFolder rel (hostVariants base) = ""
        ∨ stripHostFolder rel (hostVariants base) = "index.html") →
      reconstructUrl base rel = base.origin ++ "/" := by
    intro rel hrel
    unfold reconstructUrl
    rcases hrel with hrel | hrel <;> rw [hrel] <;> rfl
  refine ⟨?_, ?_, part3⟩
  · intro h1
    exact part3 "index.html" (Or.inr (stripHostFolder_eq_self "index.html" _ h1))
  · intro h2
    simp only [reconstructUrl, stripHostFolder_eq_self "about.html" _ h2]
    rw [if_neg (by decide)]
    rw [show cleanHtmlPath "about.html" = "about" from rfl, String.append_assoc]
    rfl

/-- C2 witness: concrete instance of `reconstructUrl_index_and_about` for the
seed `https://example.com`, exercising all three conjuncts (the third on the
path `example.com/index.html`, whose host folder strips to `index.html`). -/
theorem reconstructUrl_index_and_about_witness :
    reconstructUrl ⟨"example.com", "https://example.com"⟩ "index.html"
      = "https://example.com" ++ "/"
    ∧ reconstructUrl ⟨"example.com", "https://example.com"⟩ "about.html"
      = "https://example.com" ++ "/about"
    ∧ reconstructUrl ⟨"example.com", "https://example.com"⟩ "example.com/index.html"
      = "https://example.com" ++ "/" := by
  have h := reconstructUrl_index_and_about ⟨"example.com", "https://example.com"⟩
  exact ⟨h.1 (by decide), h.2.1 (by decide),
    h.2.2 "example.com/index.html" (by decide)⟩

/-- C2 counterexample: the claim quantifies over every seed URL, but for the
(valid) seed host `index.ht` — a bare prefix of `index.html` — the
host-folder stripping fires on `index.html` itself, leaving `ml`, so
`reconstruct(seed, "index.html")` is `http://index.ht/ml`, not the origin
with a trailing slash. -/
theorem reconstructUrl_index_counterexample :
    reconstructUrl ⟨"index.ht", "http://index.ht"⟩ "index.html"
      = "http://index.ht/ml"
    ∧ ("http://index.ht/ml" : String) ≠ "http://index.ht" ++ "/" := by
  constructor <;> decide

/-- C9: when the seed hostname is a bare prefix of the local relative path
not followed by `/` — the first path segment strictly extends the hostname —
the host-folder test of `reconstructUrl` falls back to the separator-less
prefix match and strips exactly `hostname.length` characters, so (unless the
leftover is empty or `index.html`) the result is the origin, `/`, and the
leftover of the path after the usual `.html` cleaning. -/
theorem reconstructUrl_bare_prefix_strip (base : UrlBase) (p : String)
    (hpre : strStartsWith p base.hostname = true)
    (hsep : strStartsWith p (base.hostname ++ "/") = false)
    (hne : strDrop p (strLen base.hostname) ≠ "")
    (hni : strDrop p (strLen base.hostname) ≠ "index.html") :
    reconstructUrl base p
      = base.origin ++ "/" ++ cleanHtmlPath (strDrop p (strLen base.hostname)) := by
  have hstrip : stripHostFolder p (hostVariants base)
      = strDrop p (strLen base.hostname) := by
    simp only [hostVariants, stripHostFolder, hsep, hpre, Bool.false_eq_true,
      if_false, if_true]
  have hcond : ((strDrop p (strLen base.hostname) == "index.html")
      || (strDrop p (strLen base.hostname) == "")) = false := by
    simp only [Bool.or_eq_false_iff, beq_eq_false_iff_ne, ne_eq]
    exact ⟨hni, hne⟩
  simp only [reconstructUrl, hstrip, hcond, Bool.false_eq_true, if_false]

/-- C9 witness: for seed host `example.com` and the path
`example.communication/x.html`, exactly the 11 characters `example.com` are
stripped and the reconstructed URL is `https://example.com/munication/x`. -/
theorem reconstructUrl_bare_prefix_strip_witness :
    reconstructUrl ⟨"example.com", "https://example.com"⟩
      "example.communication/x.html" = "https://example.com/munication/x" := by
  have h := reconstructUrl_bare_prefix_strip ⟨"example.com", "https://example.com"⟩
    "example.communication/x.html" (by decide) (by decide) (by decide) (by decide)
  exact h.trans (by decide)

theorem depthLE_trans (a b c : SitemapEntry)
    (hab : depthLE a b) (hbc : depthLE b c) : depthLE a c := by
  simp only [depthLE, decide_eq_true_eq] at *
  exact le_trans hab hbc

theorem depthLE_total (a b : SitemapEntry) : depthLE a b || depthLE b a := by
  simp only [depthLE, Bool.or_eq_true, decide_eq_true_eq]
  exact Nat.le_total a.depth b.depth

/-- C4: the sitemap built from any page sequence is a permutation of the
per-page entries (one entry per page, each with depth the raw count of `/`
characters in that page's path via `sitemapEntryOf`), has the same length as
the input, is sorted ascending by depth, and is stable: for every depth `d`,
the entries of depth `d` appear exactly as they did in the input order. -/
theorem buildSitemap_spec (pages : List Page) :
    (buildSitemap pages).Perm (pages.map sitemapEntryOf)
    ∧ (buildSitemap pages).length = pages.length
    ∧ (buildSitemap pages).Pairwise (fun a b => a.depth ≤ b.depth)
    ∧ ∀ d : Nat, (buildSitemap pages).filter (fun e => e.depth == d)
        = (pages.map sitemapEntryOf).filter (fun e => e.depth == d) := by
  have hperm : (buildSitemap pages).Perm (pages.map sitemapEntryOf) :=
    List.mergeSort_perm (pages.map sitemapEntryOf) depthLE
  refine ⟨hperm, ?_, ?_, ?_⟩
  · simpa using hperm.length_eq
  · have hs := List.sorted_mergeSort depthLE_trans depthLE_total
      (pages.map sitemapEntryOf)
    exact hs.imp fun h => by simpa [depthLE] using h
  · intro d
    have hpw : (List.filter (fun e => e.depth == d) (pages.map sitemapEntryOf)).Pairwise
        (fun a b => depthLE a b = true) := by
      apply List.pairwise_of_forall_mem_list
      intro a ha b hb
      have ha' := (List.mem_filter.mp ha).2
      have hb' := (List.mem_filter.mp hb).2
      simp only [beq_iff_eq] at ha' hb'
      simp [depthLE, ha', hb']
    have hsub : List.Sublist
        ((pages.map sitemapEntryOf).filter (fun e => e.depth == d))
        (buildSitemap pages) :=
      List.sublist_mergeSort depthLE_trans depthLE_total hpw
        (List.filter_sublist (pages.map sitemapEntryOf))
    have hsub2 := hsub.filter (fun e => e.depth == d)
    rw [List.filter_filter] at hsub2
    have heq : (fun a : SitemapEntry => (a.depth == d) && (a.depth == d))
        = fun a : SitemapEntry => a.depth == d := by
      funext a
      exact Bool.and_self _
    rw [heq] at hsub2
    have hlen : ((buildSitemap pages).filter (fun e => e.depth == d)).length
        = ((pages.map sitemapEntryOf).filter (fun e => e.depth == d)).length :=
      (hperm.filter _).length_eq
    exact (hsub2.eq_of_length hlen.symm).symm

/-- C3 (amended): every link collected by the extractor has its `isExternal`
flag equal to: the href begins with `http` AND the full href string does not
contain the page's own hostname as a substring. (The containment test runs
over the entire href — query string included — not over the href's host.)
Conversely every admissible anchor — truthy href, not an in-page anchor, not
a `javascript:` pseudo-URL — is collected, carrying exactly that flag. -/
theorem extractLinks_isExternal (anchors : List Anchor) (hostname : String) :
    (∀ l ∈ extractLinks anchors hostname,
      l.isExternal
        = (strStartsWith l.href "http" && !(strIncludes l.href hostname)))
    ∧ ∀ a ∈ anchors,
        a.href ≠ "" → strStartsWith a.href "#" = false →
        strStartsWith a.href "javascript:" = false →
        (⟨a.href, a.text,
          strStartsWith a.href "http" && !(strIncludes a.href hostname)⟩ : LinkInfo)
          ∈ extractLinks anchors hostname := by
  constructor
  · intro l hl
    simp only [extractLinks, List.mem_filterMap] at hl
    obtain ⟨a, -, ha⟩ := hl
    split at ha
    · cases ha
      rfl
    · cases ha
  · intro a ha h1 h2 h3
    simp only [extractLinks, List.mem_filterMap]
    exact ⟨a, ha, by rw [if_pos ⟨h1, h2, h3⟩]⟩

/-- C3 witness: concrete instance of `extractLinks_isExternal` on a page with
hostname `example.com` and a single admitted external anchor. -/
theorem extractLinks_isExternal_witness :
    (⟨"https://other.org/", "y", true⟩ : LinkInfo).isExternal
      = (strStartsWith "https://other.org/" "http"
          && !(strIncludes "https://other.org/" "example.com")) :=
  (extractLinks_isExternal [⟨"https://other.org/", "y"⟩] "example.com").1
    ⟨"https://other.org/", "y", true⟩ (by decide)

/-- C3 counterexample: for the page hostname `example.com` and the anchor
href `http://foo.com/?q=example.com` — whose host is `foo.com` — the claim
says `isExternal` is true (the href begins with `http` and its host does not
contain `example.com`), but the code tests containment on the whole href and
the collected link carries `isExternal = false`. -/
theorem extractLinks_isExternal_counterexample :
    extractLinks [⟨"http://foo.com/?q=example.com", "x"⟩] "example.com"
      = [⟨"http://foo.com/?q=example.com", "x", false⟩]
    ∧ specHrefHost "http://foo.com/?q=example.com" = "foo.com"
    ∧ strStartsWith "http://foo.com/?q=example.com" "http" = true
    ∧ strIncludes "foo.com" "example.com" = false := by
  refine ⟨?_, ?_, ?_, ?_⟩ <;> decide

/-- C5: a paragraph survives extraction exactly when its trimmed text is
strictly longer than 20 characters (the extra JS truthiness test is
subsumed), included paragraphs appear trimmed in document order, and at the
boundary a 20-character paragraph is dropped while a 21-character one is
kept. -/
theorem extractParagraphs_spec :
    (∀ texts : List String, extractParagraphs texts
      = (texts.map strTrim).filter fun t => 20 < strLen t)
    ∧ extractParagraphs [⟨List.replicate 20 'a'⟩] = []
    ∧ extractParagraphs [⟨List.replicate 21 'a'⟩] = [⟨List.replicate 21 'a'⟩] := by
  refine ⟨?_, by decide, by decide⟩
  intro texts
  induction texts with
  | nil => rfl
  | cons t ts ih =>
    simp only [extractParagraphs, List.filterMap_cons, List.map_cons,
      List.filter_cons] at *
    by_cases h : 20 < strLen (strTrim t)
    · have hne : strTrim t ≠ "" := by
        intro hcontra
        rw [hcontra] at h
        exact absurd h (by decide)
      simp [h, hne, ih]
    · simp [h, ih]

/-- C8: each structured-data block is parsed independently — a block the
JSON parser rejects contributes no entry and does not prevent the blocks
before or after it from being parsed (nor does it abort extraction: the
function still returns the remaining parses; there is no error output at
all, mirroring the silent per-block `catch`). -/
theorem extractStructuredData_independent {J : Type} (parse : String → Option J)
    (pre post : List (Option String)) (bad : Option String)
    (hbad : parse (bad.getD "") = none) :
    extractStructuredData parse (pre ++ bad :: post)
      = extractStructuredData parse pre ++ extractStructuredData parse post := by
  simp [extractStructuredData, List.filterMap_append, List.filterMap_cons, hbad]

/-- C8 witness: with a parser accepting exactly `"good"`, a bad middle block
is skipped and both neighbours are still parsed. -/
theorem extractStructuredData_independent_witness :
    extractStructuredData (fun s => if s = "good" then some 1 else none)
      [some "good", some "not json", some "good"] = [1, 1] := by
  have h := @extractStructuredData_independent Nat
    (fun s => if s = "good" then some 1 else none)
    [some "good"] [some "good"] (some "not json") (by decide)
  exact h.trans (by decide)

set_option maxRecDepth 100000 in
/-- C6: a page yields a digest content subsection iff it has at least one
heading or paragraph; within a subsection the (truthy) first paragraph is
emitted as its first 300 characters with `...` appended exactly when it is
longer than 300 — concretely, a 310-character paragraph becomes 300
characters plus an ellipsis and a 300-character one is emitted verbatim. -/
theorem contentLines_spec (p : Page) (q : String) (rest : List String)
    (hq : p.paragraphs = q :: rest) (hne : q ≠ "") :
    contentLines p
      = ["### " ++ p.title, "URL: " ++ p.url, ""] ++ headingBullets p
        ++ ["", strTake q 300 ++ (if 300 < strLen q then "..." else "")] ++ [""]
    ∧ (∀ r : Page, contentLines r = [] ↔ (r.headings = [] ∧ r.paragraphs = []))
    ∧ contentLines ⟨"u", "/", "T", none, [], [⟨List.replicate 310 'b'⟩]⟩
        = ["### T", "URL: u", "", "", (⟨List.replicate 300 'b'⟩ : String) ++ "...", ""]
    ∧ contentLines ⟨"u", "/", "T", none, [], [⟨List.replicate 300 'b'⟩]⟩
        = ["### T", "URL: u", "", "", ⟨List.replicate 300 'b'⟩, ""] := by
  refine ⟨?_, ?_, by decide, by decide⟩
  · have hcond : (0 < p.headings.length || 0 < (q :: rest).length) = true := by
      simp
    simp [contentLines, hq, hcond, firstParaLines, hne]
  · intro r
    by_cases hh : (0 < r.headings.length || 0 < r.paragraphs.length) = true
    · simp only [contentLines, hh, if_true]
      constructor
      · intro habs
        simp at habs
      · rintro ⟨h1, h2⟩
        rw [h1, h2] at hh
        simp at hh
    · have hh' : (0 < r.headings.length || 0 < r.paragraphs.length) = false :=
        Bool.eq_false_iff.mpr hh
      simp only [contentLines, hh', Bool.false_eq_true, if_false, true_iff]
      simp only [Bool.or_eq_false_iff, decide_eq_false_iff_not, Nat.not_lt,
        Nat.le_zero, List.length_eq_zero] at hh'
      exact hh'

/-- C6 witness: concrete instance of `contentLines_spec` on a page whose
single paragraph is short. -/
theorem contentLines_spec_witness :
    contentLines ⟨"https://e.com/", "/", "Home", none, [],
        ["This paragraph is long enough to count."]⟩
      = ["### Home", "URL: https://e.com/", ""]
        ++ headingBullets ⟨"https://e.com/", "/", "Home", none, [],
            ["This paragraph is long enough to count."]⟩
        ++ ["", strTake "This paragraph is long enough to count." 300
              ++ (if 300 < strLen "This paragraph is long enough to count."
                  then "..." else "")] ++ [""] := by
  have h := contentLines_spec
    ⟨"https://e.com/", "/", "Home", none, [],
      ["This paragraph is long enough to count."]⟩
    "This paragraph is long enough to count." [] rfl (by decide)
  have h1 := h.1
  simp only [] at h1
  exact h1

/-- C10: the digest's block-quoted site summary comes only from the first
page in input order whose path is `/` or empty; when that page has no
description, the quote segment is empty — and therefore absent from the
digest — no matter what any later root-path page carries. -/
theorem homepageLines_first_root (pre post : List Page) (hp : Page)
    (domain : String)
    (hpre : ∀ q ∈ pre, (q.path == "/" || q.path == "") = false)
    (hroot : (hp.path == "/" || hp.path == "") = true)
    (hdesc : hp.description = none) :
    homepageLines (pre ++ hp :: post) = []
    ∧ generateLlmsTxt (pre ++ hp :: post) domain
      = String.intercalate "\n"
        (["# " ++ domain, ""]
          ++ ["## Seiten / Pages", ""]
          ++ (pre ++ hp :: post).flatMap pageListLines
          ++ [""]
          ++ ["## Inhalt / Content", ""]
          ++ (pre ++ hp :: post).flatMap contentLines) := by
  have hfind : (pre ++ hp :: post).find? (fun p => p.path == "/" || p.path == "")
      = some hp := by
    rw [List.find?_append]
    have hnone : pre.find? (fun p => p.path == "/" || p.path == "") = none :=
      List.find?_eq_none.mpr fun x hx => by simp [hpre x hx]
    rw [hnone, Option.none_or]
    exact List.find?_cons_of_pos post hroot
  have hempty : homepageLines (pre ++ hp :: post) = [] := by
    simp only [homepageLines, hfind, hdesc]
  refine ⟨hempty, ?_⟩
  simp only [generateLlmsTxt, hempty, List.append_nil, List.nil_append]

/-- C10 witness: a first root page without description suppresses the quote
even though a later root page has one. -/
theorem homepageLines_first_root_witness :
    homepageLines
      [⟨"https://e.com/", "/", "Home", none, [], []⟩,
       ⟨"https://e.com/x", "", "Other root", some "Later description", [], []⟩]
      = [] := by
  have h := homepageLines_first_root []
    [⟨"https://e.com/x", "", "Other root", some "Later description", [], []⟩]
    ⟨"https://e.com/", "/", "Home", none, [], []⟩ "e.com"
    (by simp) (by decide) rfl
  exact h.1

/-- C7: a run's `success` flag is true exactly when its accumulated error
list is empty; in particular the run whose scrape succeeded with zero HTML
files and zero assets has no pages, no assets, no errors — and is
successful. -/
theorem fetchWebsiteModel_success_iff :
    (∀ eff : RunEffects,
      ((fetchWebsiteModel eff).success = true ↔ (fetchWebsiteModel eff).errors = []))
    ∧ fetchWebsiteModel ⟨.ok ([], [])⟩
      = ⟨true, [], [], []⟩ := by
  refine ⟨?_, rfl⟩
  intro eff
  obtain ⟨s⟩ := eff
  cases s with
  | error e => simp [fetchWebsiteModel]
  | ok pr =>
    obtain ⟨frs, assetList⟩ := pr
    simp [fetchWebsiteModel, List.length_eq_zero]
